import Mathlib

/-!
Verification development for the work-api multi-cluster workload
distribution controllers.  The definitions below are a shallow embedding
of the Go controllers in pkg/controllers (work_status_controller.go,
resource_tracker.go, the finalizer controller and the periodic
applied-work controller).  External cluster I/O (client Get / Create /
Update / Delete calls) is passed in as explicit outcome parameters, and
each reconcile function returns the controller result, the returned
error, and the list of mutation calls it issued.
-/

namespace WorkApi

/-- Kubernetes API error kinds relevant to these controllers, as
distinguished by the apimachinery predicates the code calls
(IsNotFound, IsGone, IsAlreadyExists). -/
inductive KError where
  | notFound
  | gone
  | alreadyExists
  | other
deriving DecidableEq, Repr

/-- Models k8s.io apimachinery errors.IsNotFound (HTTP 404). -/
def isNotFound : KError → Bool
  | .notFound => true
  | _ => false

/-- Models k8s.io apimachinery errors.IsGone (HTTP 410). -/
def isGone : KError → Bool
  | .gone => true
  | _ => false

/-- Models k8s.io apimachinery errors.IsAlreadyExists. -/
def isAlreadyExists : KError → Bool
  | .alreadyExists => true
  | _ => false

/-- workapi.ResourceIdentifier: identity of one manifest resource as
declared in Work status (group, version, kind, resource, namespace,
name, ordinal).  The namespace field is called nspace because the Go
field name is a Lean keyword. -/
structure ResourceIdentifier where
  ordinal : Nat
  group : String
  version : String
  kind : String
  resource : String
  nspace : String
  name : String
deriving DecidableEq, Repr

/-- workapi.AppliedManifestResourceMeta: a tracked applied resource in
AppliedWork status; embeds a ResourceIdentifier and carries the UID
captured by the controller (Go zero value is the empty string). -/
structure AppliedManifestResourceMeta where
  identifier : ResourceIdentifier
  uid : String
deriving DecidableEq, Repr

/-- metav1.ConditionStatus. -/
inductive ConditionStatus where
  | conditionTrue
  | conditionFalse
  | conditionUnknown
deriving DecidableEq, Repr

/-- metav1.Condition, restricted to the fields the controllers read. -/
structure Condition where
  condType : String
  status : ConditionStatus
deriving DecidableEq, Repr

/-- The ConditionTypeApplied constant. -/
def ConditionTypeApplied : String := "Applied"

/-- meta.FindStatusCondition: first condition with the given type. -/
def FindStatusCondition (conditions : List Condition) (condType : String) :
    Option Condition :=
  conditions.find? (fun c => c.condType == condType)

/-- workapi.ManifestCondition: per-manifest identifier plus conditions. -/
structure ManifestCondition where
  identifier : ResourceIdentifier
  conditions : List Condition
deriving DecidableEq, Repr

/-- workapi.WorkStatus, restricted to the fields the controllers read. -/
structure WorkStatus where
  manifestConditions : List ManifestCondition := []
deriving DecidableEq, Repr

/-- workapi.Work: finalizers, deletion timestamp (none models IsZero)
and status. -/
structure Work where
  name : String := ""
  finalizers : List String := []
  deletionTimestamp : Option Nat := none
  status : WorkStatus := {}
deriving DecidableEq, Repr

/-- workapi.AppliedWorkSpec. -/
structure AppliedWorkSpec where
  manifestWorkName : String := ""
deriving DecidableEq, Repr

/-- workapi.AppliedtWorkStatus. -/
structure AppliedtWorkStatus where
  appliedResources : List AppliedManifestResourceMeta := []
deriving DecidableEq, Repr

/-- workapi.AppliedWork. -/
structure AppliedWork where
  name : String := ""
  spec : AppliedWorkSpec := {}
  status : AppliedtWorkStatus := {}
deriving DecidableEq, Repr

/-- schema.GroupVersionResource. -/
structure GroupVersionResource where
  group : String
  version : String
  resource : String
deriving DecidableEq, Repr

/-- The zero GroupVersionResource value returned on error paths. -/
def emptyGVR : GroupVersionResource := ⟨"", "", ""⟩

/-- controller-runtime ctrl.Result: requeueAfter in nanoseconds,
0 meaning no explicit requeue (the Go zero value ctrl.Result\x7b\x7d). -/
structure CtrlResult where
  requeueAfter : Nat := 0
deriving DecidableEq, Repr

/-- Go time.Minute in nanoseconds. -/
def timeMinute : Nat := 60000000000

/-- The work cleanup finalizer constant from manager.go. -/
def workFinalizer : String := "multicluster.x-k8s.io/work-cleanup"

/-! ## Work status controller (work_status_controller.go) -/

/-- isSameResource: identity comparison between a tracked
AppliedManifestResourceMeta and a declared ResourceIdentifier, by
resource, version, group, namespace and name only. -/
def isSameResource (appliedMeta : AppliedManifestResourceMeta)
    (resourceId : ResourceIdentifier) : Bool :=
  appliedMeta.identifier.resource == resourceId.resource &&
  appliedMeta.identifier.version == resourceId.version &&
  appliedMeta.identifier.group == resourceId.group &&
  appliedMeta.identifier.nspace == resourceId.nspace &&
  appliedMeta.identifier.name == resourceId.name

/-- The manifest condition carries an Applied condition whose status is
True.  Folds the two skip branches of the Go loop (missing Applied
condition, and Applied condition not True) into one test. -/
def hasAppliedTrue (mc : ManifestCondition) : Bool :=
  match FindStatusCondition mc.conditions ConditionTypeApplied with
  | none => false
  | some ac => ac.status == ConditionStatus.conditionTrue

/-- First loop of calculateNewAppliedWork: a tracked entry is stale when
no manifest condition (of any Applied status) has the same identity. -/
def calcStaleRes (work : Work) (appliedWork : AppliedWork) :
    List AppliedManifestResourceMeta :=
  appliedWork.status.appliedResources.filter fun resourceMeta =>
    ! work.status.manifestConditions.any fun manifestCond =>
        isSameResource resourceMeta manifestCond.identifier

/-- Second loop of calculateNewAppliedWork: for every manifest condition
with Applied=True, keep the first matching tracked entry (it has the
UID), otherwise synthesize a fresh entry from the identifier. -/
def calcNewRes (applied : List AppliedManifestResourceMeta) :
    List ManifestCondition → List AppliedManifestResourceMeta
  | [] => []
  | manifestCond :: rest =>
    if hasAppliedTrue manifestCond then
      match applied.find? (fun m => isSameResource m manifestCond.identifier) with
      | some resourceMeta => resourceMeta :: calcNewRes applied rest
      | none => ⟨manifestCond.identifier, ""⟩ :: calcNewRes applied rest
    else calcNewRes applied rest

/-- calculateNewAppliedWork: returns (newRes, staleRes). -/
def calculateNewAppliedWork (work : Work) (appliedWork : AppliedWork) :
    List AppliedManifestResourceMeta × List AppliedManifestResourceMeta :=
  (calcNewRes appliedWork.status.appliedResources work.status.manifestConditions,
   calcStaleRes work appliedWork)

/-- utilerrors.NewAggregate: nil on an empty error list, otherwise the
aggregate of the collected errors. -/
def NewAggregate (errs : List KError) : Option (List KError) :=
  if errs = [] then none else some errs

/-- The error-collection loop of deleteStaleWork: every entry is
attempted with its recorded group/version/resource/namespace/name; an
error passing IsGone is dropped, every other error is collected. -/
def deleteStaleErrs
    (deleteFn : GroupVersionResource → String → String → Option KError) :
    List AppliedManifestResourceMeta → List KError
  | [] => []
  | staleWork :: rest =>
    let gvr : GroupVersionResource :=
      ⟨staleWork.identifier.group, staleWork.identifier.version,
       staleWork.identifier.resource⟩
    match deleteFn gvr staleWork.identifier.nspace staleWork.identifier.name with
    | some e =>
      if ! isGone e then e :: deleteStaleErrs deleteFn rest
      else deleteStaleErrs deleteFn rest
    | none => deleteStaleErrs deleteFn rest

/-- deleteStaleWork: delete every stale entry via the dynamic client
(modelled by deleteFn) and aggregate the collected errors. -/
def deleteStaleWork
    (deleteFn : GroupVersionResource → String → String → Option KError)
    (staleWorks : List AppliedManifestResourceMeta) : Option (List KError) :=
  NewAggregate (deleteStaleErrs deleteFn staleWorks)

/-- Models the cluster object-store delete of the external collaborator:
deleting a live resource succeeds and deleting an absent resource
reports a not-found error (HTTP 404). -/
def clusterDelete (live : List (GroupVersionResource × String × String)) :
    GroupVersionResource → String → String → Option KError :=
  fun gvr ns n => if (gvr, ns, n) ∈ live then none else some KError.notFound

/-- Result of the fetchWorks helper as branched on by
WorkStatusReconciler.Reconcile: a fetch error, the work already garbage
collected, or both objects present. -/
inductive FetchWorksResult where
  | fetchErr (e : KError)
  | workGone
  | both (work : Work) (appliedWork : AppliedWork)

/-- Error returned by WorkStatusReconciler.Reconcile: a client error or
the aggregate from deleteStaleWork. -/
inductive StatusErr where
  | api (e : KError)
  | aggregate (errs : List KError)
deriving DecidableEq, Repr

/-- Replace the applied-resource list in an AppliedWork status. -/
def setAppliedResources (aw : AppliedWork)
    (res : List AppliedManifestResourceMeta) : AppliedWork :=
  { aw with status := { appliedResources := res } }

/-- Outcome of one WorkStatusReconciler.Reconcile run: the controller
result and error, the AppliedWork passed to the status Update call (none
when no update was issued), and the AppliedWork record stored on the
spoke after the run (none when the record was not fetched). -/
structure StatusOut where
  result : CtrlResult
  err : Option StatusErr
  updateArg : Option AppliedWork
  stored : Option AppliedWork
deriving DecidableEq, Repr

/-- WorkStatusReconciler.Reconcile: diff the work status against the
tracked set, delete the stale resources, and only on full success update
the AppliedWork status to the new set.  updateStatus is the outcome of
the spoke status Update call; a failed update stores nothing. -/
def WorkStatusReconcile
    (deleteFn : GroupVersionResource → String → String → Option KError)
    (updateStatus : AppliedWork → Option KError)
    (fetched : FetchWorksResult) : StatusOut :=
  match fetched with
  | .fetchErr e => ⟨{}, some (.api e), none, none⟩
  | .workGone => ⟨{}, none, none, none⟩
  | .both work appliedWork =>
    let diff := calculateNewAppliedWork work appliedWork
    match deleteStaleWork deleteFn diff.2 with
    | some errs => ⟨{}, some (.aggregate errs), none, some appliedWork⟩
    | none =>
      let updated := setAppliedResources appliedWork diff.1
      match updateStatus updated with
      | some e => ⟨{}, some (.api e), some updated, some appliedWork⟩
      | none => ⟨{}, none, some updated, some updated⟩

/-- The five-field identity key by which isSameResource compares. -/
def resourceKey (id : ResourceIdentifier) :
    String × String × String × String × String :=
  (id.group, id.version, id.resource, id.nspace, id.name)

/-! ## Finalizer lifecycle controller (FinalizeWorkReconciler) -/

/-- controllerutil.ContainsFinalizer. -/
def ContainsFinalizer (w : Work) (finalizer : String) : Bool :=
  w.finalizers.contains finalizer

/-- controllerutil.RemoveFinalizer: drop every occurrence. -/
def RemoveFinalizer (w : Work) (finalizer : String) : Work :=
  { w with finalizers := w.finalizers.filter (fun f => f != finalizer) }

/-- controllerutil.AddFinalizer as performed inline by the reconciler:
append to the finalizer list. -/
def AppendFinalizer (w : Work) (finalizer : String) : Work :=
  { w with finalizers := w.finalizers ++ [finalizer] }

/-- The AppliedWork object the finalizer controller creates for a Work:
same name, spec.ManifestWorkName set to the request name. -/
def newAppliedWorkFor (reqName : String) : AppliedWork :=
  { name := reqName, spec := { manifestWorkName := reqName }, status := {} }

/-- One cluster mutation call issued by a reconciler, in issue order. -/
inductive ClusterOp where
  | deleteAppliedWork (name : String) (foregroundPropagation : Bool)
  | createAppliedWork (aw : AppliedWork)
  | updateWork (w : Work)
deriving DecidableEq, Repr

/-- Outcome of one FinalizeWorkReconciler.Reconcile run. -/
structure FinalizeOut where
  result : CtrlResult
  err : Option KError
  actions : List ClusterOp
deriving DecidableEq, Repr

/-- FinalizeWorkReconciler.Reconcile.  getWork is the hub Get outcome,
deleteAW the outcome of the foreground AppliedWork delete, createAW the
outcome of the AppliedWork create, updateW the outcome of the Work
update (each is consulted only when the corresponding call is issued). -/
def FinalizeWorkReconcile
    (getWork : Except KError Work)
    (deleteAW : Option KError)
    (createAW : Option KError)
    (updateW : Option KError)
    (reqName : String) : FinalizeOut :=
  match getWork with
  | .error e =>
    if isNotFound e then ⟨{}, none, []⟩ else ⟨{}, some e, []⟩
  | .ok work =>
    if work.deletionTimestamp.isSome then
      if ContainsFinalizer work workFinalizer then
        match deleteAW with
        | some e => ⟨{}, some e, [.deleteAppliedWork reqName true]⟩
        | none =>
          let w2 := RemoveFinalizer work workFinalizer
          ⟨{}, updateW, [.deleteAppliedWork reqName true, .updateWork w2]⟩
      else
        ⟨{}, updateW, [.updateWork work]⟩
    else
      if ContainsFinalizer work workFinalizer then ⟨{}, none, []⟩
      else
        let aw := newAppliedWorkFor reqName
        match createAW with
        | some e =>
          if ! isAlreadyExists e then ⟨{}, some e, [.createAppliedWork aw]⟩
          else
            let w2 := AppendFinalizer work workFinalizer
            ⟨{}, updateW, [.createAppliedWork aw, .updateWork w2]⟩
        | none =>
          let w2 := AppendFinalizer work workFinalizer
          ⟨{}, updateW, [.createAppliedWork aw, .updateWork w2]⟩

/-! ## Applied resource tracker (resource_tracker.go) -/

/-- Error returned by appliedResourceTracker.reconcile: a client error
or a consistency error built with fmt.Errorf. -/
inductive ReconcileError where
  | api (e : KError)
  | consistency (msg : String)
deriving DecidableEq, Repr

/-- The fetch pattern of appliedResourceTracker.reconcile: a passed-in
object is used as is; otherwise the Get outcome is consulted, with a
not-found error resolved to an absent object and any other error
propagated. -/
def resolveGet {α : Type} (pre : Option α) (get : Except KError α) :
    Except KError (Option α) :=
  match pre with
  | some a => .ok (some a)
  | none =>
    match get with
    | .ok a => .ok (some a)
    | .error e => if isNotFound e then .ok none else .error e

/-- checkConsistentExist: a hard consistency error when exactly one of
the Work and the AppliedWork exists. -/
def checkConsistentExist (work : Option Work) (appliedWork : Option AppliedWork)
    (workName : String) : Option String :=
  match work, appliedWork with
  | none, some _ =>
    some ("work finalizer did not delete the appliedWork " ++ workName)
  | some _, none =>
    some ("work controller did not create the appliedWork " ++ workName)
  | _, _ => none

/-- removeDeletedAppliedWork: logs and returns nil in every case. -/
def removeDeletedAppliedWork (work : Option Work)
    (appliedWork : Option AppliedWork) : Option ReconcileError :=
  match work, appliedWork with
  | _, _ => none

/-- Outcome of one appliedResourceTracker.reconcile run. -/
structure TrackerOut where
  result : CtrlResult
  err : Option ReconcileError
  ops : List ClusterOp
deriving DecidableEq, Repr

/-- appliedResourceTracker.reconcile: fetch whichever of the two
objects was not passed in, run the consistency check, then
removeDeletedAppliedWork.  It issues no create or delete call. -/
def trackerReconcile
    (hubGetWork : Except KError Work)
    (spokeGetAppliedWork : Except KError AppliedWork)
    (workIn : Option Work) (appliedWorkIn : Option AppliedWork)
    (workName : String) : TrackerOut :=
  match resolveGet workIn hubGetWork with
  | .error e => ⟨{}, some (.api e), []⟩
  | .ok workOpt =>
    match resolveGet appliedWorkIn spokeGetAppliedWork with
    | .error e => ⟨{}, some (.api e), []⟩
    | .ok awOpt =>
      match checkConsistentExist workOpt awOpt workName with
      | some msg => ⟨{}, some (.consistency msg), []⟩
      | none =>
        match removeDeletedAppliedWork workOpt awOpt with
        | some e => ⟨{}, some e, []⟩
        | none => ⟨{}, none, []⟩

/-! ## Periodic applied-work controller (AppliedWorkReconciler) -/

/-- AppliedWorkReconciler.Reconcile: fetch the AppliedWork, run the
tracker reconcile (passing no Work, so the tracker fetches it from the
hub), propagate its error, and otherwise requeue after one minute while
the AppliedWork record still exists, stopping once it is absent. -/
def AppliedWorkReconcile
    (getAW : Except KError AppliedWork)
    (hubGetWork : Except KError Work)
    (spokeGetAppliedWork : Except KError AppliedWork)
    (workName : String) : CtrlResult × Option ReconcileError :=
  match getAW with
  | .error e =>
    if isNotFound e then
      match (trackerReconcile hubGetWork spokeGetAppliedWork none none workName).err with
      | some e2 => ({}, some e2)
      | none => ({}, none)
    else ({}, some (.api e))
  | .ok appliedWork =>
    match (trackerReconcile hubGetWork spokeGetAppliedWork none (some appliedWork) workName).err with
    | some e2 => ({}, some e2)
    | none => ({ requeueAfter := timeMinute }, none)

/-! ## Manifest decoding (decodeUnstructured) -/

/-- schema.GroupVersionKind. -/
structure GroupVersionKind where
  group : String
  version : String
  kind : String
deriving DecidableEq, Repr

/-- schema.GroupKind. -/
structure GroupKind where
  group : String
  kind : String
deriving DecidableEq, Repr

/-- GroupVersionKind.GroupKind(). -/
def GroupVersionKind.groupKind (gvk : GroupVersionKind) : GroupKind :=
  ⟨gvk.group, gvk.kind⟩

/-- unstructured.Unstructured, restricted to the group-version-kind the
decoder reads. -/
structure Unstructured where
  gvk : GroupVersionKind
deriving DecidableEq, Repr

/-- meta.RESTMapping, restricted to the resolved resource triple. -/
structure RESTMapping where
  resource : GroupVersionResource
deriving DecidableEq, Repr

/-- workapi.Manifest: one raw manifest payload. -/
structure Manifest where
  raw : String
deriving DecidableEq, Repr

/-- decodeUnstructured: unmarshal the raw payload, then resolve the
decoded group-kind and version through the REST mapper; on either
failure return the zero GroupVersionResource, no object and a wrapped
error message.  unmarshalJSON and restMapping are the external JSON
decoder and the REST mapper. -/
def decodeUnstructured
    (unmarshalJSON : String → Except String Unstructured)
    (restMapping : GroupKind → String → Except String RESTMapping)
    (manifest : Manifest) :
    GroupVersionResource × Option Unstructured × Option String :=
  match unmarshalJSON manifest.raw with
  | .error e => (emptyGVR, none, some ("Failed to decode object: " ++ e))
  | .ok unstructuredObj =>
    match restMapping unstructuredObj.gvk.groupKind unstructuredObj.gvk.version with
    | .error e =>
      (emptyGVR, none, some ("Failed to find gvr from restmapping: " ++ e))
    | .ok mapping => (mapping.resource, some unstructuredObj, none)

/-! ## Helper lemmas -/

theorem isSameResource_iff {m : AppliedManifestResourceMeta}
    {i : ResourceIdentifier} :
    isSameResource m i = true ↔ resourceKey m.identifier = resourceKey i := by
  simp only [isSameResource, Bool.and_eq_true, beq_iff_eq, resourceKey,
    Prod.mk.injEq]
  tauto

theorem deleteStaleErrs_ne_nil
    {deleteFn : GroupVersionResource → String → String → Option KError}
    {l : List AppliedManifestResourceMeta}
    {m : AppliedManifestResourceMeta} {e : KError}
    (hm : m ∈ l)
    (he : deleteFn ⟨m.identifier.group, m.identifier.version, m.identifier.resource⟩
            m.identifier.nspace m.identifier.name = some e)
    (hg : isGone e = false) :
    deleteStaleErrs deleteFn l ≠ [] := by
  induction l with
  | nil => simp at hm
  | cons a rest ih =>
    rcases List.mem_cons.mp hm with rfl | hmem
    · simp [deleteStaleErrs, he, hg]
    · simp only [deleteStaleErrs]
      cases hd : deleteFn ⟨a.identifier.group, a.identifier.version, a.identifier.resource⟩
          a.identifier.nspace a.identifier.name with
      | none => simpa using ih hmem
      | some e2 =>
        by_cases hg2 : isGone e2
        · simpa [hg2] using ih hmem
        · simp [hg2]

theorem mem_calcNewRes_cons_of_mem
    {applied : List AppliedManifestResourceMeta}
    {rest : List ManifestCondition} {a : ManifestCondition}
    {m : AppliedManifestResourceMeta}
    (h : m ∈ calcNewRes applied rest) :
    m ∈ calcNewRes applied (a :: rest) := by
  by_cases hta : hasAppliedTrue a = true
  · cases hfa : applied.find? (fun x => isSameResource x a.identifier) with
    | some y => simp only [calcNewRes, hta, if_true, hfa]; exact List.mem_cons_of_mem _ h
    | none => simp only [calcNewRes, hta, if_true, hfa]; exact List.mem_cons_of_mem _ h
  · simpa [calcNewRes, hta] using h

theorem find_mem_calcNewRes
    (applied : List AppliedManifestResourceMeta)
    {conds : List ManifestCondition} {mc : ManifestCondition}
    (hmc : mc ∈ conds) (ht : hasAppliedTrue mc = true) :
    (∀ m, applied.find? (fun x => isSameResource x mc.identifier) = some m →
        m ∈ calcNewRes applied conds) ∧
    (applied.find? (fun x => isSameResource x mc.identifier) = none →
        (⟨mc.identifier, ""⟩ : AppliedManifestResourceMeta) ∈ calcNewRes applied conds) := by
  induction conds with
  | nil => simp at hmc
  | cons a rest ih =>
    rcases List.mem_cons.mp hmc with rfl | hmem
    · constructor
      · intro m hf
        simp only [calcNewRes, ht, if_true, hf]
        exact List.mem_cons_self _ _
      · intro hf
        simp only [calcNewRes, ht, if_true, hf]
        exact List.mem_cons_self _ _
    · obtain ⟨ih1, ih2⟩ := ih hmem
      exact ⟨fun m hf => mem_calcNewRes_cons_of_mem (ih1 m hf),
             fun hf => mem_calcNewRes_cons_of_mem (ih2 hf)⟩

theorem mem_calcNewRes_elim
    {applied : List AppliedManifestResourceMeta}
    {conds : List ManifestCondition} {m : AppliedManifestResourceMeta}
    (h : m ∈ calcNewRes applied conds) :
    ∃ mc ∈ conds, hasAppliedTrue mc = true ∧
      resourceKey m.identifier = resourceKey mc.identifier := by
  induction conds with
  | nil => simp [calcNewRes] at h
  | cons a rest ih =>
    by_cases hta : hasAppliedTrue a = true
    · cases hfa : applied.find? (fun x => isSameResource x a.identifier) with
      | some y =>
        simp only [calcNewRes, hta, if_true, hfa, List.mem_cons] at h
        rcases h with rfl | h
        · have hpy : isSameResource m a.identifier = true := by
            simpa using List.find?_some hfa
          exact ⟨a, List.mem_cons_self _ _, hta, isSameResource_iff.mp hpy⟩
        · obtain ⟨mc, hmc, h1, h2⟩ := ih h
          exact ⟨mc, List.mem_cons_of_mem _ hmc, h1, h2⟩
      | none =>
        simp only [calcNewRes, hta, if_true, hfa, List.mem_cons] at h
        rcases h with rfl | h
        · exact ⟨a, List.mem_cons_self _ _, hta, rfl⟩
        · obtain ⟨mc, hmc, h1, h2⟩ := ih h
          exact ⟨mc, List.mem_cons_of_mem _ hmc, h1, h2⟩
    · simp only [calcNewRes, hta, if_false] at h
      obtain ⟨mc, hmc, h1, h2⟩ := ih h
      exact ⟨mc, List.mem_cons_of_mem _ hmc, h1, h2⟩

theorem exists_mem_calcNewRes_of_cond
    (applied : List AppliedManifestResourceMeta)
    {conds : List ManifestCondition} {mc : ManifestCondition}
    (hmc : mc ∈ conds) (ht : hasAppliedTrue mc = true) :
    ∃ m ∈ calcNewRes applied conds,
      resourceKey m.identifier = resourceKey mc.identifier := by
  obtain ⟨h1, h2⟩ := find_mem_calcNewRes applied hmc ht
  cases hf : applied.find? (fun x => isSameResource x mc.identifier) with
  | some y =>
    have hpy : isSameResource y mc.identifier = true := by
      simpa using List.find?_some hf
    exact ⟨y, h1 y hf, isSameResource_iff.mp hpy⟩
  | none => exact ⟨⟨mc.identifier, ""⟩, h2 hf, rfl⟩

theorem mem_calcStaleRes_iff {work : Work} {aw : AppliedWork}
    {m : AppliedManifestResourceMeta} :
    m ∈ calcStaleRes work aw ↔
      m ∈ aw.status.appliedResources ∧
        ∀ mc ∈ work.status.manifestConditions,
          isSameResource m mc.identifier = false := by
  simp [calcStaleRes, List.mem_filter, List.any_eq_true]

/-- Stale set as the specification words it: tracked entries with no
matching Applied=true ResourceIdentifier among the manifest conditions.
Stated from the spec for comparison with calcStaleRes. -/
def claimStaleRes (work : Work) (appliedWork : AppliedWork) :
    List AppliedManifestResourceMeta :=
  appliedWork.status.appliedResources.filter fun resourceMeta =>
    ! work.status.manifestConditions.any fun manifestCond =>
        hasAppliedTrue manifestCond &&
          isSameResource resourceMeta manifestCond.identifier

/-! ## Claim theorems -/

/-- Claim C1: if any stale-resource deletion fails during a Status/GC
reconcile, the AppliedWork status update is not performed, the stored
tracked set after the reconcile equals the tracked set before it, and
the reconcile returns the aggregated deletion error. -/
theorem C1_no_partial_commit
    (deleteFn : GroupVersionResource → String → String → Option KError)
    (updateStatus : AppliedWork → Option KError)
    (work : Work) (aw : AppliedWork)
    (m : AppliedManifestResourceMeta) (e : KError)
    (hm : m ∈ (calculateNewAppliedWork work aw).2)
    (he : deleteFn ⟨m.identifier.group, m.identifier.version, m.identifier.resource⟩
            m.identifier.nspace m.identifier.name = some e)
    (hg : isGone e = false) :
    (WorkStatusReconcile deleteFn updateStatus (.both work aw)).stored = some aw ∧
    (WorkStatusReconcile deleteFn updateStatus (.both work aw)).updateArg = none ∧
    ∃ errs, (WorkStatusReconcile deleteFn updateStatus (.both work aw)).err
      = some (.aggregate errs) := by
  have herrs : deleteStaleErrs deleteFn (calculateNewAppliedWork work aw).2 ≠ [] :=
    deleteStaleErrs_ne_nil hm he hg
  have hagg : deleteStaleWork deleteFn (calculateNewAppliedWork work aw).2
      = some (deleteStaleErrs deleteFn (calculateNewAppliedWork work aw).2) := by
    simp [deleteStaleWork, NewAggregate, herrs]
  refine ⟨?_, ?_, ?_⟩ <;>
    simp [WorkStatusReconcile, hagg]

/-- Witness for C1 at a concrete input: one tracked resource, no longer
declared, whose deletion fails with a generic error. -/
theorem C1_no_partial_commit_witness :
    (WorkStatusReconcile (fun _ _ _ => some KError.other) (fun _ => none)
        (.both {}
          { status := { appliedResources :=
              [⟨⟨0, "apps", "v1", "Deployment", "deployments", "default", "web"⟩, "u1"⟩] } })).stored
      = some { status := { appliedResources :=
          [⟨⟨0, "apps", "v1", "Deployment", "deployments", "default", "web"⟩, "u1"⟩] } } ∧
    (WorkStatusReconcile (fun _ _ _ => some KError.other) (fun _ => none)
        (.both {}
          { status := { appliedResources :=
              [⟨⟨0, "apps", "v1", "Deployment", "deployments", "default", "web"⟩, "u1"⟩] } })).updateArg
      = none ∧
    ∃ errs, (WorkStatusReconcile (fun _ _ _ => some KError.other) (fun _ => none)
        (.both {}
          { status := { appliedResources :=
              [⟨⟨0, "apps", "v1", "Deployment", "deployments", "default", "web"⟩, "u1"⟩] } })).err
      = some (.aggregate errs) :=
  C1_no_partial_commit _ _ _ _
    ⟨⟨0, "apps", "v1", "Deployment", "deployments", "default", "web"⟩, "u1"⟩
    KError.other (by decide) rfl rfl

/-- Claim C2 counterexample: a tracked entry whose manifest condition is
present but has Applied=False is not computed as stale by the code,
although the claim says every tracked entry with no matching
Applied=true identifier is stale. -/
theorem C2_stale_counterexample :
    (calculateNewAppliedWork
        { status := { manifestConditions :=
            [⟨⟨0, "apps", "v1", "Deployment", "deployments", "default", "web"⟩,
              [⟨"Applied", ConditionStatus.conditionFalse⟩]⟩] } }
        { status := { appliedResources :=
            [⟨⟨0, "apps", "v1", "Deployment", "deployments", "default", "web"⟩, "u1"⟩] } }).2
      ≠ claimStaleRes
        { status := { manifestConditions :=
            [⟨⟨0, "apps", "v1", "Deployment", "deployments", "default", "web"⟩,
              [⟨"Applied", ConditionStatus.conditionFalse⟩]⟩] } }
        { status := { appliedResources :=
            [⟨⟨0, "apps", "v1", "Deployment", "deployments", "default", "web"⟩, "u1"⟩] } } := by
  decide

/-- Claim C2 (amended): the code computes the stale set as exactly those
tracked entries with no matching ResourceIdentifier of any Applied
status among the manifest conditions; and after a reconcile in which all
stale deletions and the status update succeed, the stored tracked set
equals, by five-field identity, exactly the set of declared identifiers
whose Applied condition is true. -/
theorem C2_diff_correct
    (deleteFn : GroupVersionResource → String → String → Option KError)
    (updateStatus : AppliedWork → Option KError)
    (work : Work) (aw : AppliedWork)
    (hdel : deleteStaleWork deleteFn (calculateNewAppliedWork work aw).2 = none)
    (hupd : updateStatus
        (setAppliedResources aw (calculateNewAppliedWork work aw).1) = none) :
    (∀ m, m ∈ (calculateNewAppliedWork work aw).2 ↔
        m ∈ aw.status.appliedResources ∧
          ∀ mc ∈ work.status.manifestConditions,
            isSameResource m mc.identifier = false) ∧
    ∃ aw2, (WorkStatusReconcile deleteFn updateStatus (.both work aw)).stored
        = some aw2 ∧
      ∀ k, (∃ m ∈ aw2.status.appliedResources, resourceKey m.identifier = k) ↔
           (∃ mc ∈ work.status.manifestConditions,
              hasAppliedTrue mc = true ∧ resourceKey mc.identifier = k) := by
  constructor
  · intro m
    exact mem_calcStaleRes_iff
  · refine ⟨setAppliedResources aw (calculateNewAppliedWork work aw).1, ?_, ?_⟩
    · simp [WorkStatusReconcile, hdel, hupd]
    · intro k
      constructor
      · rintro ⟨m, hm, rfl⟩
        obtain ⟨mc, hmc, h1, h2⟩ := mem_calcNewRes_elim hm
        exact ⟨mc, hmc, h1, h2.symm⟩
      · rintro ⟨mc, hmc, h1, rfl⟩
        obtain ⟨m, hm, h2⟩ := exists_mem_calcNewRes_of_cond
          aw.status.appliedResources hmc h1
        exact ⟨m, hm, h2⟩

/-- Witness for C2 at a concrete input: one declared Applied=true
manifest retained, one tracked entry gone stale and deleted. -/
theorem C2_diff_correct_witness :
    ((∀ m, m ∈ (calculateNewAppliedWork
        { status := { manifestConditions :=
            [⟨⟨0, "apps", "v1", "Deployment", "deployments", "default", "web"⟩,
              [⟨"Applied", ConditionStatus.conditionTrue⟩]⟩] } }
        { status := { appliedResources :=
            [⟨⟨0, "", "v1", "ConfigMap", "configmaps", "default", "cm1"⟩, "u2"⟩] } }).2 ↔
        m ∈ ({ status := { appliedResources :=
            [⟨⟨0, "", "v1", "ConfigMap", "configmaps", "default", "cm1"⟩, "u2"⟩] } } :
              AppliedWork).status.appliedResources ∧
          ∀ mc ∈ ({ status := { manifestConditions :=
            [⟨⟨0, "apps", "v1", "Deployment", "deployments", "default", "web"⟩,
              [⟨"Applied", ConditionStatus.conditionTrue⟩]⟩] } } :
              Work).status.manifestConditions,
            isSameResource m mc.identifier = false) ∧
    ∃ aw2, (WorkStatusReconcile (fun _ _ _ => none) (fun _ => none)
        (.both
          { status := { manifestConditions :=
              [⟨⟨0, "apps", "v1", "Deployment", "deployments", "default", "web"⟩,
                [⟨"Applied", ConditionStatus.conditionTrue⟩]⟩] } }
          { status := { appliedResources :=
              [⟨⟨0, "", "v1", "ConfigMap", "configmaps", "default", "cm1"⟩, "u2"⟩] } })).stored
        = some aw2 ∧
      ∀ k, (∃ m ∈ aw2.status.appliedResources, resourceKey m.identifier = k) ↔
           (∃ mc ∈ ({ status := { manifestConditions :=
              [⟨⟨0, "apps", "v1", "Deployment", "deployments", "default", "web"⟩,
                [⟨"Applied", ConditionStatus.conditionTrue⟩]⟩] } } :
                Work).status.manifestConditions,
              hasAppliedTrue mc = true ∧ resourceKey mc.identifier = k)) :=
  C2_diff_correct (fun _ _ _ => none) (fun _ => none) _ _ rfl rfl

/-- Claim C5 (code bug evidence): a stale entry whose live resource is
already absent; the cluster delete reports not-found, and deleteStaleWork
collects that error into the returned aggregate instead of treating the
already-gone deletion as success, because the code only drops errors
passing IsGone (HTTP 410). -/
theorem C5_not_found_collected :
    deleteStaleWork (clusterDelete [])
      [⟨⟨0, "apps", "v1", "Deployment", "deployments", "default", "web"⟩, "u1"⟩]
      = some [KError.notFound] := by
  decide

/-- Claim C6: for each manifest condition with Applied=true, if a
tracked entry with the same identity exists then the first such entry
itself (UID included) is in the new tracked set; otherwise a fresh entry
synthesized from the identifier, with empty UID, is in it. -/
theorem C6_retain_uid_or_fresh
    (work : Work) (aw : AppliedWork) (mc : ManifestCondition)
    (hmc : mc ∈ work.status.manifestConditions)
    (ht : hasAppliedTrue mc = true) :
    (∀ m, aw.status.appliedResources.find?
        (fun x => isSameResource x mc.identifier) = some m →
        m ∈ (calculateNewAppliedWork work aw).1) ∧
    (aw.status.appliedResources.find?
        (fun x => isSameResource x mc.identifier) = none →
        (⟨mc.identifier, ""⟩ : AppliedManifestResourceMeta)
          ∈ (calculateNewAppliedWork work aw).1) :=
  find_mem_calcNewRes aw.status.appliedResources hmc ht

/-- Witness for C6 at a concrete input: the declared identifier matches
the tracked entry, so the entry with its UID is retained. -/
theorem C6_retain_uid_or_fresh_witness :
    (∀ m, ({ status := { appliedResources :=
          [⟨⟨7, "apps", "v1", "Deployment", "deployments", "default", "web"⟩, "u1"⟩] } } :
            AppliedWork).status.appliedResources.find?
        (fun x => isSameResource x
          ⟨0, "apps", "v1", "Deployment", "deployments", "default", "web"⟩) = some m →
        m ∈ (calculateNewAppliedWork
          { status := { manifestConditions :=
              [⟨⟨0, "apps", "v1", "Deployment", "deployments", "default", "web"⟩,
                [⟨"Applied", ConditionStatus.conditionTrue⟩]⟩] } }
          { status := { appliedResources :=
              [⟨⟨7, "apps", "v1", "Deployment", "deployments", "default", "web"⟩, "u1"⟩] } }).1) ∧
    (({ status := { appliedResources :=
          [⟨⟨7, "apps", "v1", "Deployment", "deployments", "default", "web"⟩, "u1"⟩] } } :
            AppliedWork).status.appliedResources.find?
        (fun x => isSameResource x
          ⟨0, "apps", "v1", "Deployment", "deployments", "default", "web"⟩) = none →
        (⟨⟨0, "apps", "v1", "Deployment", "deployments", "default", "web"⟩, ""⟩ :
            AppliedManifestResourceMeta)
          ∈ (calculateNewAppliedWork
          { status := { manifestConditions :=
              [⟨⟨0, "apps", "v1", "Deployment", "deployments", "default", "web"⟩,
                [⟨"Applied", ConditionStatus.conditionTrue⟩]⟩] } }
          { status := { appliedResources :=
              [⟨⟨7, "apps", "v1", "Deployment", "deployments", "default", "web"⟩, "u1"⟩] } }).1) :=
  C6_retain_uid_or_fresh _ _
    ⟨⟨0, "apps", "v1", "Deployment", "deployments", "default", "web"⟩,
      [⟨"Applied", ConditionStatus.conditionTrue⟩]⟩
    (by decide) (by decide)

/-- Claim C3: on a Work carrying the cleanup finalizer with its deletion
timestamp set, the reconcile issues the foreground delete of the
AppliedWork first; on a delete error the error is returned and no Work
update is issued, so the finalizer is retained; only after the delete
succeeds is the update persisting the finalizer removal issued. -/
theorem C3_finalizer_sequencing
    (deleteAW createAW updateW : Option KError) (reqName : String) (work : Work)
    (hdt : work.deletionTimestamp.isSome = true)
    (hfin : ContainsFinalizer work workFinalizer = true) :
    (∀ e, deleteAW = some e →
        FinalizeWorkReconcile (.ok work) deleteAW createAW updateW reqName
          = ⟨{}, some e, [.deleteAppliedWork reqName true]⟩) ∧
    (deleteAW = none →
        FinalizeWorkReconcile (.ok work) deleteAW createAW updateW reqName
          = ⟨{}, updateW, [.deleteAppliedWork reqName true,
              .updateWork (RemoveFinalizer work workFinalizer)]⟩) := by
  constructor
  · rintro e rfl
    simp [FinalizeWorkReconcile, hdt, hfin]
  · rintro rfl
    simp [FinalizeWorkReconcile, hdt, hfin]

/-- Witness for C3 at a concrete input: terminating Work with the
finalizer, failing then succeeding AppliedWork delete. -/
theorem C3_finalizer_sequencing_witness :
    (∀ e, (some KError.other : Option KError) = some e →
        FinalizeWorkReconcile
          (.ok { name := "w1", finalizers := [workFinalizer],
                 deletionTimestamp := some 5 })
          (some KError.other) none none "w1"
          = ⟨{}, some e, [.deleteAppliedWork "w1" true]⟩) ∧
    ((some KError.other : Option KError) = none →
        FinalizeWorkReconcile
          (.ok { name := "w1", finalizers := [workFinalizer],
                 deletionTimestamp := some 5 })
          (some KError.other) none none "w1"
          = ⟨{}, none, [.deleteAppliedWork "w1" true,
              .updateWork (RemoveFinalizer
                { name := "w1", finalizers := [workFinalizer],
                  deletionTimestamp := some 5 } workFinalizer)]⟩) :=
  C3_finalizer_sequencing (some KError.other) none none "w1"
    { name := "w1", finalizers := [workFinalizer], deletionTimestamp := some 5 }
    (by decide) (by decide)

/-- Claim C4: the tracker reconcile returns a consistency error exactly
when one of the Work and the AppliedWork exists and the other does not,
returns no error when both exist or both are absent, and issues no
create or delete call in any case. -/
theorem C4_consistency_check
    (hubGetWork : Except KError Work)
    (spokeGetAppliedWork : Except KError AppliedWork)
    (workIn : Option Work) (appliedWorkIn : Option AppliedWork)
    (workName : String) (wOpt : Option Work) (aOpt : Option AppliedWork)
    (hw : resolveGet workIn hubGetWork = .ok wOpt)
    (ha : resolveGet appliedWorkIn spokeGetAppliedWork = .ok aOpt) :
    ((wOpt.isSome ∧ aOpt = none) ∨ (wOpt = none ∧ aOpt.isSome) →
       ∃ msg, (trackerReconcile hubGetWork spokeGetAppliedWork workIn
           appliedWorkIn workName).err = some (.consistency msg)) ∧
    ((wOpt.isSome ∧ aOpt.isSome) ∨ (wOpt = none ∧ aOpt = none) →
       (trackerReconcile hubGetWork spokeGetAppliedWork workIn
           appliedWorkIn workName).err = none) ∧
    (trackerReconcile hubGetWork spokeGetAppliedWork workIn
        appliedWorkIn workName).ops = [] := by
  cases wOpt <;> cases aOpt <;>
    simp [trackerReconcile, hw, ha, checkConsistentExist,
      removeDeletedAppliedWork]

/-- Witness for C4 at a concrete input: Work exists, AppliedWork was
deleted out of band, so the reconcile reports the consistency error and
issues no repair. -/
theorem C4_consistency_check_witness :
    ((Option.isSome (some ({ name := "w1" } : Work)) ∧
        (none : Option AppliedWork) = none) ∨
      ((some ({ name := "w1" } : Work)) = none ∧
        Option.isSome (none : Option AppliedWork)) →
       ∃ msg, (trackerReconcile (.ok { name := "w1" })
           (.error KError.notFound) none none "w1").err
           = some (.consistency msg)) ∧
    ((Option.isSome (some ({ name := "w1" } : Work)) ∧
        Option.isSome (none : Option AppliedWork)) ∨
      ((some ({ name := "w1" } : Work)) = none ∧
        (none : Option AppliedWork) = none) →
       (trackerReconcile (.ok { name := "w1" })
           (.error KError.notFound) none none "w1").err = none) ∧
    (trackerReconcile (.ok { name := "w1" })
        (.error KError.notFound) none none "w1").ops = [] :=
  C4_consistency_check (.ok { name := "w1" }) (.error KError.notFound)
    none none "w1" (some { name := "w1" }) none rfl rfl

/-- Claim C7: on a Work with no deletion timestamp and no cleanup
finalizer, the reconcile first creates the AppliedWork, tolerating an
already-exists error as success and returning any other creation error
without touching the finalizers, and only on success appends the
finalizer and issues the Work update; with the finalizer already present
and no deletion timestamp it succeeds doing nothing. -/
theorem C7_create_then_finalizer
    (deleteAW createAW updateW : Option KError) (reqName : String) (work : Work)
    (hdt : work.deletionTimestamp = none) :
    (ContainsFinalizer work workFinalizer = true →
        FinalizeWorkReconcile (.ok work) deleteAW createAW updateW reqName
          = ⟨{}, none, []⟩) ∧
    (ContainsFinalizer work workFinalizer = false →
      (∀ e, createAW = some e → isAlreadyExists e = false →
          FinalizeWorkReconcile (.ok work) deleteAW createAW updateW reqName
            = ⟨{}, some e, [.createAppliedWork (newAppliedWorkFor reqName)]⟩) ∧
      (∀ e, createAW = some e → isAlreadyExists e = true →
          FinalizeWorkReconcile (.ok work) deleteAW createAW updateW reqName
            = ⟨{}, updateW, [.createAppliedWork (newAppliedWorkFor reqName),
                .updateWork (AppendFinalizer work workFinalizer)]⟩) ∧
      (createAW = none →
          FinalizeWorkReconcile (.ok work) deleteAW createAW updateW reqName
            = ⟨{}, updateW, [.createAppliedWork (newAppliedWorkFor reqName),
                .updateWork (AppendFinalizer work workFinalizer)]⟩)) := by
  constructor
  · intro hfin
    simp [FinalizeWorkReconcile, hdt, hfin]
  · intro hfin
    refine ⟨?_, ?_, ?_⟩
    · rintro e rfl hae
      simp [FinalizeWorkReconcile, hdt, hfin, hae]
    · rintro e rfl hae
      simp [FinalizeWorkReconcile, hdt, hfin, hae]
    · rintro rfl
      simp [FinalizeWorkReconcile, hdt, hfin]

/-- Witness for C7 at a concrete input: unmanaged Work, creation
succeeds, finalizer appended and Work update issued. -/
theorem C7_create_then_finalizer_witness :
    (ContainsFinalizer { name := "w1" } workFinalizer = true →
        FinalizeWorkReconcile (.ok { name := "w1" }) none none none "w1"
          = ⟨{}, none, []⟩) ∧
    (ContainsFinalizer { name := "w1" } workFinalizer = false →
      (∀ e, (none : Option KError) = some e → isAlreadyExists e = false →
          FinalizeWorkReconcile (.ok { name := "w1" }) none none none "w1"
            = ⟨{}, some e, [.createAppliedWork (newAppliedWorkFor "w1")]⟩) ∧
      (∀ e, (none : Option KError) = some e → isAlreadyExists e = true →
          FinalizeWorkReconcile (.ok { name := "w1" }) none none none "w1"
            = ⟨{}, none, [.createAppliedWork (newAppliedWorkFor "w1"),
                .updateWork (AppendFinalizer { name := "w1" } workFinalizer)]⟩) ∧
      ((none : Option KError) = none →
          FinalizeWorkReconcile (.ok { name := "w1" }) none none none "w1"
            = ⟨{}, none, [.createAppliedWork (newAppliedWorkFor "w1"),
                .updateWork (AppendFinalizer { name := "w1" } workFinalizer)]⟩)) :=
  C7_create_then_finalizer none none none "w1" { name := "w1" } rfl

/-- Claim C8 counterexample: the AppliedWork record exists (its Get
succeeds), but the hub Work is absent, so the inner tracker reconcile
fails with a consistency error and the returned result carries no
one-minute requeue, although the claim says the reconcile requeues after
one minute whenever the record still exists. -/
theorem C8_requeue_counterexample :
    (AppliedWorkReconcile (Except.ok {}) (Except.error KError.notFound)
        (Except.ok {}) "work0").1.requeueAfter ≠ timeMinute := by
  decide

/-- Claim C8 (amended): the periodic reconciler returns an explicit
one-minute requeue whenever the AppliedWork record still exists and the
inner tracker reconcile succeeds, returns success with no requeue once
the record is observed absent and the inner reconcile succeeds, and
returns the inner error with no requeue otherwise. -/
theorem C8_periodic_requeue
    (getAW : Except KError AppliedWork) (hubGetWork : Except KError Work)
    (spokeGetAppliedWork : Except KError AppliedWork) (workName : String) :
    (∀ aw, getAW = .ok aw →
        (trackerReconcile hubGetWork spokeGetAppliedWork none (some aw)
            workName).err = none →
        AppliedWorkReconcile getAW hubGetWork spokeGetAppliedWork workName
          = ({ requeueAfter := timeMinute }, none)) ∧
    (getAW = .error .notFound →
        (trackerReconcile hubGetWork spokeGetAppliedWork none none
            workName).err = none →
        AppliedWorkReconcile getAW hubGetWork spokeGetAppliedWork workName
          = ({}, none)) ∧
    (∀ aw e, getAW = .ok aw →
        (trackerReconcile hubGetWork spokeGetAppliedWork none (some aw)
            workName).err = some e →
        AppliedWorkReconcile getAW hubGetWork spokeGetAppliedWork workName
          = ({}, some e)) ∧
    (∀ e, getAW = .error .notFound →
        (trackerReconcile hubGetWork spokeGetAppliedWork none none
            workName).err = some e →
        AppliedWorkReconcile getAW hubGetWork spokeGetAppliedWork workName
          = ({}, some e)) := by
  refine ⟨?_, ?_, ?_, ?_⟩
  · rintro aw rfl hok
    simp [AppliedWorkReconcile, hok]
  · rintro rfl hok
    simp [AppliedWorkReconcile, hok, isNotFound]
  · rintro aw e rfl herr
    simp [AppliedWorkReconcile, herr]
  · rintro e rfl herr
    simp [AppliedWorkReconcile, herr, isNotFound]

/-- Witness for C8 at a concrete input: record and Work both exist, the
tracker reconcile succeeds, and the result requeues after one minute. -/
theorem C8_periodic_requeue_witness :
    AppliedWorkReconcile (.ok { name := "w1" }) (.ok { name := "w1" })
        (.ok { name := "w1" }) "w1"
      = ({ requeueAfter := timeMinute }, none) :=
  (C8_periodic_requeue (.ok { name := "w1" }) (.ok { name := "w1" })
      (.ok { name := "w1" }) "w1").1
    { name := "w1" } rfl (by decide)

/-- Claim C9: decodeUnstructured returns an error with the zero
group-version-resource when the payload does not decode, an error with
the zero triple when the REST mapper has no mapping for the decoded
group-kind and version, and otherwise the resolved triple of the mapping
together with the decoded object. -/
theorem C9_decode_resolution
    (unmarshalJSON : String → Except String Unstructured)
    (restMapping : GroupKind → String → Except String RESTMapping)
    (manifest : Manifest) :
    (∀ e, unmarshalJSON manifest.raw = .error e →
        decodeUnstructured unmarshalJSON restMapping manifest
          = (emptyGVR, none, some ("Failed to decode object: " ++ e))) ∧
    (∀ obj e, unmarshalJSON manifest.raw = .ok obj →
        restMapping obj.gvk.groupKind obj.gvk.version = .error e →
        decodeUnstructured unmarshalJSON restMapping manifest
          = (emptyGVR, none,
             some ("Failed to find gvr from restmapping: " ++ e))) ∧
    (∀ obj mapping, unmarshalJSON manifest.raw = .ok obj →
        restMapping obj.gvk.groupKind obj.gvk.version = .ok mapping →
        decodeUnstructured unmarshalJSON restMapping manifest
          = (mapping.resource, some obj, none)) := by
  refine ⟨?_, ?_, ?_⟩
  · intro e he
    simp [decodeUnstructured, he]
  · intro obj e hobj hmap
    simp [decodeUnstructured, hobj, hmap]
  · intro obj mapping hobj hmap
    simp [decodeUnstructured, hobj, hmap]

/-- Witness for C9 at a concrete input: a decodable payload whose kind
the REST mapper resolves. -/
theorem C9_decode_resolution_witness :
    decodeUnstructured
      (fun _ => .ok ⟨⟨"apps", "v1", "Deployment"⟩⟩)
      (fun _ _ => .ok ⟨⟨"apps", "v1", "deployments"⟩⟩)
      ⟨"payload"⟩
      = (⟨"apps", "v1", "deployments"⟩, some ⟨⟨"apps", "v1", "Deployment"⟩⟩,
         none) :=
  (C9_decode_resolution (fun _ => .ok ⟨⟨"apps", "v1", "Deployment"⟩⟩)
      (fun _ _ => .ok ⟨⟨"apps", "v1", "deployments"⟩⟩) ⟨"payload"⟩).2.2
    ⟨⟨"apps", "v1", "Deployment"⟩⟩ ⟨⟨"apps", "v1", "deployments"⟩⟩ rfl rfl

/-- Claim C10: on a terminating Work carrying the finalizer whose
AppliedWork record is already absent, the foreground delete reports
not-found, the reconcile propagates that error, and no Work update is
issued, so the finalizer is never removed by this path. -/
theorem C10_not_found_blocks_deletion
    (createAW updateW : Option KError) (reqName : String) (work : Work)
    (hdt : work.deletionTimestamp.isSome = true)
    (hfin : ContainsFinalizer work workFinalizer = true) :
    FinalizeWorkReconcile (.ok work) (some KError.notFound) createAW
        updateW reqName
      = ⟨{}, some KError.notFound, [.deleteAppliedWork reqName true]⟩ := by
  simp [FinalizeWorkReconcile, hdt, hfin]

/-- Witness for C10 at a concrete input. -/
theorem C10_not_found_blocks_deletion_witness :
    FinalizeWorkReconcile
        (.ok { name := "w1", finalizers := [workFinalizer],
               deletionTimestamp := some 5 })
        (some KError.notFound) none none "w1"
      = ⟨{}, some KError.notFound, [.deleteAppliedWork "w1" true]⟩ :=
  C10_not_found_blocks_deletion none none "w1"
    { name := "w1", finalizers := [workFinalizer], deletionTimestamp := some 5 }
    (by decide) (by decide)

end WorkApi
